import Mathlib

/-!
Verification development for the poke-agent-cloud polling agent
(`src/agent.js`).  Strings from the JavaScript source are modelled as
`List Char`; machine timestamps (`Date.now()`, milliseconds) as `Nat`.
All definitions are executable and use structural recursion only, so
concrete runs evaluate inside the kernel.
-/

/-- JavaScript string model: a list of characters. -/
abbrev Str := List Char

/-- The `'---\n'` separator `parseMessages` splits the log on. -/
def sepMarker : Str := "---\n".data

/-- The preamble header substring `'# Messages from Poke'`. -/
def pokeHeader : Str := "# Messages from Poke".data

/-- The `'**From:**'` speaker marker line prefix. -/
def fromMarker : Str := "**From:**".data

/-- The `'**Timestamp:**'` metadata marker line prefix. -/
def tsMarker : Str := "**Timestamp:**".data

/-- The assistant speaker name `'Claude'`. -/
def claudeName : Str := "Claude".data

/-- Whitespace characters removed by JavaScript `String.prototype.trim`. -/
def isWS (c : Char) : Bool := c = ' ' || c = '\n' || c = '\t' || c = '\r'

/-- Model of JavaScript `s.trim()`. -/
def jsTrim (s : Str) : Str :=
  ((s.dropWhile isWS).reverse.dropWhile isWS).reverse

/-- Index of the first occurrence of `pat` in `s` (JavaScript `indexOf`). -/
def firstOcc (pat : Str) (s : Str) : Option Nat :=
  if pat.isPrefixOf s then some 0
  else
    match s with
    | [] => none
    | _ :: t => (firstOcc pat t).map (· + 1)

/-- Model of JavaScript `s.includes(pat)`. -/
def includesB (pat : Str) (s : Str) : Bool := (firstOcc pat s).isSome

/-- Worker for `splitOnList`; the fuel argument only serves termination and
is always at least the length of the string, so it never runs out. -/
def splitLoop (sep : Str) : Nat → Str → Str → List Str
  | 0, s, acc => [acc.reverse ++ s]
  | _ + 1, [], acc => [acc.reverse]
  | fuel + 1, c :: rest, acc =>
    if sep.isPrefixOf (c :: rest) then
      acc.reverse :: splitLoop sep fuel ((c :: rest).drop sep.length) []
    else
      splitLoop sep fuel rest (c :: acc)

/-- Model of JavaScript `s.split(sep)` for a non-empty separator. -/
def splitOnList (sep s : Str) : List Str := splitLoop sep (s.length + 1) s []

/-- Model of JavaScript `s.replace(old, new)` with a plain replacement
string: replaces the first occurrence only. -/
def replaceFirst (s old new : Str) : Str :=
  match firstOcc old s with
  | none => s
  | some i => s.take i ++ new ++ s.drop (i + old.length)

/-- A parsed conversation turn, as produced by `parseMessages`. -/
structure Message where
  from_ : Str
  content : Str
deriving DecidableEq, Inhabited

/-- The line scan inside `parseMessages`: walks the lines of one block,
tracking the current `from` value, the accumulated body, and the
`foundContent` flag; a `'**Timestamp:**'` line flips into body mode and
skips the following line (the `i++` in the source). -/
def parseBlockLines : List Str → Option Str → Str → Bool → Option Str × Str
  | [], from?, acc, _ => (from?, acc)
  | l :: ls, from?, acc, found =>
    if fromMarker.isPrefixOf l then
      parseBlockLines ls (some (jsTrim (l.drop fromMarker.length))) acc found
    else if tsMarker.isPrefixOf l then
      match ls with
      | [] => (from?, acc)
      | _ :: ls2 => parseBlockLines ls2 from? acc true
    else if found then
      parseBlockLines ls from? (acc ++ l ++ ['\n']) found
    else
      parseBlockLines ls from? acc found

/-- Parsing of one record block: trim, split into lines, scan, and keep
the message only when `from` is truthy and the trimmed body is non-empty. -/
def parseBlock (block : Str) : Option Message :=
  let lines := splitOnList ['\n'] (jsTrim block)
  match parseBlockLines lines none [] false with
  | (some f, content) =>
    if !f.isEmpty && !(jsTrim content).isEmpty then some ⟨f, jsTrim content⟩
    else none
  | (none, _) => none

/-- `parseMessages` from `src/agent.js`: split the log on `'---\n'`,
drop blocks that trim to empty or contain `'# Messages from Poke'`
anywhere, and parse each surviving block. -/
def parseMessages (content : Str) : List Message :=
  ((splitOnList sepMarker content).filter
      (fun b => !(jsTrim b).isEmpty && !includesB pokeHeader b)).filterMap
    parseBlock

/-- `needsResponse` from `src/agent.js`: `null` on an empty turn list or
when the last turn is from `'Claude'`; otherwise the last turn. -/
def needsResponse (messages : List Message) : Option Message :=
  match messages.getLast? with
  | none => none
  | some lastMessage =>
    if lastMessage.from_ = claudeName then none else some lastMessage

/-- One role-tagged entry of the conversation window. -/
structure ConvMessage where
  role : Str
  content : Str
deriving DecidableEq, Inhabited

/-- The `'assistant'` role string. -/
def roleAssistant : Str := "assistant".data

/-- The `'user'` role string. -/
def roleUser : Str := "user".data

/-- `buildConversationHistory` from `src/agent.js`: take the last 10
turns (`messages.slice(-10)`) and tag each with a role. -/
def buildConversationHistory (messages : List Message) : List ConvMessage :=
  let recentMessages := messages.drop (messages.length - 10)
  recentMessages.map fun msg =>
    if msg.from_ = claudeName then ⟨roleAssistant, msg.content⟩
    else ⟨roleUser, msg.content⟩

/-- The record `logToGitHub` appends: the template literal from
`src/agent.js` with its date, time, ISO-timestamp and reply holes. -/
def claudeLogEntry (dateStr timeStr isoStr replyMessage : Str) : Str :=
  "\n## ".data ++ dateStr ++ " ".data ++ timeStr ++
    " - Claude Response\n\n**From:** Claude\n**In Response To:** caleb_newton\n**Timestamp:** ".data ++
    isoStr ++ "\n\n".data ++ replyMessage ++ "\n\n---\n".data

/-- The full content `logToGitHub` writes back:
`updatedContent = content + claudeLogEntry`. -/
def logToGitHubContent (content dateStr timeStr isoStr replyMessage : Str) : Str :=
  content ++ claudeLogEntry dateStr timeStr isoStr replyMessage

/-- The record format of the specification, assembled line by line:
a leading newline, the `## <date> <time> - Claude Response` header, the
three metadata lines, a blank line, the reply body, a blank line, and
the `---` delimiter line. -/
def specLogRecord (dateStr timeStr isoStr replyMessage : Str) : Str :=
  ['\n'] ++
  ("## ".data ++ dateStr ++ [' '] ++ timeStr ++ " - Claude Response".data ++ ['\n']) ++
  ("**From:** Claude".data ++ ['\n']) ++
  ("**In Response To:** caleb_newton".data ++ ['\n']) ++
  ("**Timestamp:** ".data ++ isoStr ++ ['\n']) ++
  ['\n'] ++ replyMessage ++ ['\n'] ++
  ['\n'] ++ "---".data ++ ['\n']

/-- Opening delimiter text of the task-creation directive, up to the
priority alternation: `'[CREATE_TASK priority='`. -/
def openTagPre : Str := "[CREATE_TASK priority=".data

/-- Closing delimiter of the task-creation directive. -/
def closeTag : Str := "[/CREATE_TASK]".data

/-- The priority alternation of the directive regex, in the order the
regex tries them: `high|normal|low`. -/
def priorities : List Str := ["high".data, "normal".data, "low".data]

/-- Try to match the full opening tag at the head of `s`; on success,
return the matched priority and the remainder after the `']'`. -/
def matchOpenTag (s : Str) : Option (Str × Str) :=
  if openTagPre.isPrefixOf s then
    let s1 := s.drop openTagPre.length
    match priorities.find? (fun p => (p ++ [']']).isPrefixOf s1) with
    | some p => some (p, s1.drop (p.length + 1))
    | none => none
  else none

/-- Worker for `extractTasks`: the repeated
`taskRegex.exec(claudeResponse)` loop.  At each position, a full opening
tag followed (lazily) by the nearest closing tag yields a match
`(match[0], priority, raw body)`; scanning resumes after the closing
tag.  If an opening tag has no closing tag anywhere after it, no further
match exists.  The fuel argument only serves termination and is always
at least the length of the string. -/
def extractTasksLoop : Nat → Str → List (Str × Str × Str)
  | 0, _ => []
  | fuel + 1, s =>
    match matchOpenTag s with
    | some (p, afterOpen) =>
      match firstOcc closeTag afterOpen with
      | some j =>
        ((openTagPre ++ p ++ [']']) ++ afterOpen.take j ++ closeTag, p,
            afterOpen.take j) ::
          extractTasksLoop fuel (afterOpen.drop (j + closeTag.length))
      | none => []
    | none =>
      match s with
      | [] => []
      | _ :: rest => extractTasksLoop fuel rest

/-- All matches of the directive regex
`\[CREATE_TASK priority=(high|normal|low)\]([\s\S]*?)\[\/CREATE_TASK\]`
over the generated response, left to right and non-overlapping:
`(full match, priority, raw body)`. -/
def extractTasks (s : Str) : List (Str × Str × Str) :=
  extractTasksLoop (s.length + 1) s

/-- Decimal rendering worker; fuel-driven, always called with enough
fuel.  Builds the digit list most-significant first. -/
def natToDecimalAux : Nat → Nat → Str → Str
  | 0, _, acc => acc
  | fuel + 1, n, acc =>
    let c := Nat.digitChar (n % 10)
    if n / 10 = 0 then c :: acc else natToDecimalAux fuel (n / 10) (c :: acc)

/-- Decimal rendering of a natural number, as JavaScript template
interpolation `${now.getTime()}` renders a timestamp. -/
def natToDecimal (n : Nat) : Str := natToDecimalAux (n + 1) n []

/-- The task identifier `createTask` generates:
`` `task_${now.getTime()}` `` at clock reading `t` (milliseconds). -/
def taskIdOf (t : Nat) : Str := "task_".data ++ natToDecimal t

/-- Numeric value of a decimal digit character. -/
def charDigit (c : Char) : Nat := c.toNat - 48

/-- Value of a decimal digit string, most-significant digit first. -/
def decToNat (s : Str) : Nat := s.foldl (fun a c => a * 10 + charDigit c) 0

/-- The timestamp embedded in a task identifier: the decimal value after
the `'task_'` prefix character block of length 5. -/
def idTimestamp (id : Str) : Nat := decToNat (id.drop 5)

/-- Observable effects of one polling cycle, in the order they are
performed.  `proactiveQuery` is the generative call made inside
`checkForProactiveUpdates`; `replyGenCall` is the `callClaude` call of
the turn-processing path (recording the conversation window passed to
it); `taskCreate` is one `createTask` execution (a ledger append
attempt) with its returned id (`none` when `createTask` caught an error
and returned `null`); `pokeSend` is the `sendToPoke` of the reply;
`logAppend` is the `logToGitHub` write of the conversation log, with
the full content written. -/
inductive Effect where
  | proactiveQuery
  | proactiveSend (msg : Str)
  | replyGenCall (conv : List ConvMessage)
  | taskCreate (desc : Str) (priority : Str) (taskId : Option Str)
  | pokeSend (msg : Str)
  | logAppend (newContent : Str)
deriving DecidableEq

/-- Effects of the turn-processing path (generative reply call,
directive execution, reply send, conversation-log append), as opposed
to the proactive-notification phase. -/
def Effect.isMainEffect : Effect → Bool
  | .replyGenCall _ => true
  | .taskCreate _ _ _ => true
  | .pokeSend _ => true
  | .logAppend _ => true
  | _ => false

/-- Recognizer for the proactive send-attempt effect. -/
def Effect.isProactiveSend : Effect → Bool
  | .proactiveSend _ => true
  | _ => false

/-- Recognizer for the task-creation effect. -/
def Effect.isTaskCreate : Effect → Bool
  | .taskCreate _ _ _ => true
  | _ => false

/-- The module-level mutable state of `src/agent.js`:
`lastProcessedHash`, `isProcessing`, `lastProactiveMessage`. -/
structure AgentState where
  lastProcessedHash : Option Str
  isProcessing : Bool
  lastProactiveMessage : Nat
deriving DecidableEq

/-- One cycle's view of the outside world: the clock, the local hour,
and the outcome of every remote call the cycle may perform, provided as
oracles.  `none` for a fetch-style field models the call throwing (or,
for `proactiveApiResponse`, a non-ok HTTP response, which the source
handles by returning `null`).  `taskClocks` lists, per executed
`CreateTask` directive, either the clock reading `Date.now()` observed
inside that `createTask` call or `none` when the creation failed and
`createTask` returned `null` after logging the error. -/
structure CycleEnv where
  now : Nat
  hour : Nat
  proactiveApiResponse : Option Str
  proactiveSendOk : Bool
  fetchResult : Option (Str × Str)
  claudeReply : Option Str
  taskClocks : List (Option Nat)
  replySendOk : Bool
  appendSha : Option Str
  dateStr : Str
  timeStr : Str
  isoStr : Str
deriving DecidableEq

/-- The word `'SKIP'` the proactive decision is filtered against. -/
def skipWord : Str := "SKIP".data

/-- `checkForProactiveUpdates` from `src/agent.js`: gate on 24 hours
since the last proactive message and on the local hour being in
`[9, 20]`; past the gate, ask the generative provider and return its
message unless it is or contains `'SKIP'`.  Returns the decision
together with the effects performed (the generative query fires exactly
when both gates pass).  The source computes
`(Date.now() - lastProactiveMessage) / 3600000 < 24` in floating point
over integer millisecond values, which coincides with the integer
comparison `now - last < 86400000` used here. -/
def checkForProactiveUpdates (env : CycleEnv) (lastProactiveMessage : Nat) :
    Option Str × List Effect :=
  if env.now - lastProactiveMessage < 86400000 then (none, [])
  else if env.hour < 9 ∨ env.hour > 20 then (none, [])
  else
    (match env.proactiveApiResponse with
     | none => none
     | some raw =>
       let message := jsTrim raw
       if message ≠ skipWord ∧ ¬includesB skipWord message then some message
       else none,
     [Effect.proactiveQuery])

/-- The proactive block of `processMessages`: when
`checkForProactiveUpdates` returns a message, send it via `sendToPoke`
and, only after the send returns, set `lastProactiveMessage` to the
current time.  The final `Bool` records whether the block threw (a
failed send throws before the timestamp update runs). -/
def proactivePhase (env : CycleEnv) (s : AgentState) :
    AgentState × List Effect × Bool :=
  match checkForProactiveUpdates env s.lastProactiveMessage with
  | (none, effs) => (s, effs, false)
  | (some msg, effs) =>
    if env.proactiveSendOk then
      ({ s with lastProactiveMessage := env.now },
        effs ++ [Effect.proactiveSend msg], false)
    else
      (s, effs ++ [Effect.proactiveSend msg], true)

/-- The directive loop of `processMessages`: for each regex match over
the original `claudeResponse`, run `createTask`; when it returns an id,
replace the first occurrence of the matched text in the evolving
`responseForUser` with `[Task created: <id>]`; when it returns `null`,
leave the text unchanged. -/
def runTaskDirectives :
    List (Str × Str × Str) → List (Option Nat) → Str → Str × List Effect
  | [], _, responseForUser => (responseForUser, [])
  | (full, priority, body) :: rest, clocks, responseForUser =>
    let clock := clocks.headD none
    let taskId := clock.map taskIdOf
    let responseForUser' :=
      match taskId with
      | some tid =>
        replaceFirst responseForUser full
          ("[Task created: ".data ++ tid ++ [']'])
      | none => responseForUser
    let r := runTaskDirectives rest clocks.tail responseForUser'
    (r.1, Effect.taskCreate (jsTrim body) priority taskId :: r.2)

/-- The turn-processing part of `processMessages`, from `fetchMessages`
on: compare the fetched sha with `lastProcessedHash`, parse, check
`needsResponse`, call Claude, execute directives, send the reply, and
append to the conversation log, adopting the returned content sha.
The final `Bool` records whether this part threw. -/
def mainPhase (env : CycleEnv) (s : AgentState) :
    AgentState × List Effect × Bool :=
  match env.fetchResult with
  | none => (s, [], true)
  | some (content, sha) =>
    if s.lastProcessedHash = some sha then (s, [], false)
    else
      let messages := parseMessages content
      match needsResponse messages with
      | none => ({ s with lastProcessedHash := some sha }, [], false)
      | some _ =>
        let conversationMessages := buildConversationHistory messages
        match env.claudeReply with
        | none => (s, [Effect.replyGenCall conversationMessages], true)
        | some claudeResponse =>
          let r :=
            runTaskDirectives (extractTasks claudeResponse) env.taskClocks
              claudeResponse
          let responseForUser := r.1
          if env.replySendOk = false then
            (s, Effect.replyGenCall conversationMessages ::
                r.2 ++ [Effect.pokeSend responseForUser], true)
          else
            let updated :=
              logToGitHubContent content env.dateStr env.timeStr env.isoStr
                responseForUser
            match env.appendSha with
            | none =>
              (s, Effect.replyGenCall conversationMessages ::
                  r.2 ++ [Effect.pokeSend responseForUser,
                          Effect.logAppend updated], true)
            | some newSha =>
              ({ s with lastProcessedHash := some newSha },
                Effect.replyGenCall conversationMessages ::
                  r.2 ++ [Effect.pokeSend responseForUser,
                          Effect.logAppend updated], false)

/-- `processMessages` from `src/agent.js`: drop the tick when a cycle is
already in flight; otherwise set `isProcessing`, run the proactive block
and the turn-processing body inside `try`, and clear `isProcessing` in
`finally` on every exit, thrown errors included (the `catch` only
logs). -/
def processMessages (env : CycleEnv) (s : AgentState) :
    AgentState × List Effect :=
  if s.isProcessing then (s, [])
  else
    let s1 := { s with isProcessing := true }
    let pro := proactivePhase env s1
    if pro.2.2 then ({ pro.1 with isProcessing := false }, pro.2.1)
    else
      let main := mainPhase env pro.1
      ({ main.1 with isProcessing := false }, pro.2.1 ++ main.2.1)

/-- The record format with the blank line the source actually emits
between the header line and the `**From:**` line (the template literal
has `Claude Response\n\n**From:**`). -/
def specLogRecordFixed (dateStr timeStr isoStr replyMessage : Str) : Str :=
  ['\n'] ++
  ("## ".data ++ dateStr ++ [' '] ++ timeStr ++ " - Claude Response".data ++ ['\n']) ++
  ['\n'] ++
  ("**From:** Claude".data ++ ['\n']) ++
  ("**In Response To:** caleb_newton".data ++ ['\n']) ++
  ("**Timestamp:** ".data ++ isoStr ++ ['\n']) ++
  ['\n'] ++ replyMessage ++ ['\n'] ++
  ['\n'] ++ "---".data ++ ['\n']

/-- Decimal digit list of a natural number, most-significant first;
recursion spec used to reason about `natToDecimalAux`. -/
def decimalDigits (n : Nat) : Str :=
  if _hlt : n < 10 then [Nat.digitChar n]
  else decimalDigits (n / 10) ++ [Nat.digitChar (n % 10)]
termination_by n
decreasing_by exact Nat.div_lt_self (by omega) (by omega)

/-- A single-block log text that contains the preamble header substring
and also a well-formed speaker line and non-empty body. -/
def pokeHeaderExample : Str :=
  "# Messages from Poke\n\n**From:** caleb\n**Timestamp:** t\n\nhello\n".data

/-- A generated response that is exactly one task-creation directive. -/
def c7resp : Str :=
  "[CREATE_TASK priority=high]\nbash: ls\n[/CREATE_TASK]".data


/-- A conversation log whose last parsed turn is from the assistant. -/
def c2Content : Str :=
  "---\n**From:** caleb\n**Timestamp:** t\n\nhi\n---\n**From:** Claude\n**Timestamp:** t\n\nyo\n---\n".data

/-- A conversation log whose last parsed turn is from the operator. -/
def operatorContent : Str :=
  "---\n**From:** caleb\n**Timestamp:** t\n\nrun the tests\n---\n".data

/-- A generated response holding two task-creation directives. -/
def twoDirectives : Str :=
  "[CREATE_TASK priority=high]a[/CREATE_TASK][CREATE_TASK priority=low]b[/CREATE_TASK]".data

/-- Environment for the no-op cycle run: the fetched sha equals the
last-seen one and the proactive gate is closed (same clock reading). -/
def c1Env : CycleEnv :=
  { now := 0, hour := 12, proactiveApiResponse := none, proactiveSendOk := true
    fetchResult := some ("x".data, "sha1".data), claudeReply := none
    taskClocks := [], replySendOk := true, appendSha := none
    dateStr := [], timeStr := [], isoStr := [] }

/-- State for the no-op cycle run. -/
def c1State : AgentState :=
  { lastProcessedHash := some "sha1".data, isProcessing := false
    lastProactiveMessage := 0 }

/-- Environment for the self-answer-suppression run: new sha, but the
last parsed turn is the assistant's. -/
def c2Env : CycleEnv :=
  { now := 0, hour := 12, proactiveApiResponse := none, proactiveSendOk := true
    fetchResult := some (c2Content, "sha2".data), claudeReply := none
    taskClocks := [], replySendOk := true, appendSha := none
    dateStr := [], timeStr := [], isoStr := [] }

/-- State for the self-answer-suppression run. -/
def c2State : AgentState :=
  { lastProcessedHash := none, isProcessing := false, lastProactiveMessage := 0 }

/-- Environment for the proactive-gate run: 25 hours since the last
proactive message, local hour 14, the decision oracle answers with a
message, and the send succeeds. -/
def c3Env : CycleEnv :=
  { now := 90000000, hour := 14, proactiveApiResponse := some "Hey there".data
    proactiveSendOk := true, fetchResult := none, claudeReply := none
    taskClocks := [], replySendOk := true, appendSha := none
    dateStr := [], timeStr := [], isoStr := [] }

/-- State for the proactive-gate run. -/
def c3State : AgentState :=
  { lastProcessedHash := none, isProcessing := false, lastProactiveMessage := 0 }

/-- Environment identical to the proactive-gate run except that the
downstream notification send fails. -/
def c4Env : CycleEnv :=
  { now := 90000000, hour := 14, proactiveApiResponse := some "Hey there".data
    proactiveSendOk := false, fetchResult := none, claudeReply := none
    taskClocks := [], replySendOk := true, appendSha := none
    dateStr := [], timeStr := [], isoStr := [] }

/-- State for the failed-proactive-send run. -/
def c4State : AgentState :=
  { lastProcessedHash := none, isProcessing := false, lastProactiveMessage := 0 }

/-- Environment for the re-entrancy runs. -/
def c5Env : CycleEnv :=
  { now := 0, hour := 12, proactiveApiResponse := none, proactiveSendOk := true
    fetchResult := none, claudeReply := none
    taskClocks := [], replySendOk := true, appendSha := none
    dateStr := [], timeStr := [], isoStr := [] }

/-- A state with a cycle already in flight. -/
def c5Busy : AgentState :=
  { lastProcessedHash := none, isProcessing := true, lastProactiveMessage := 0 }

/-- A state with no cycle in flight. -/
def c5Idle : AgentState :=
  { lastProcessedHash := none, isProcessing := false, lastProactiveMessage := 0 }

/-- Environment for the same-tick task-id run: two directives in the
generated response, both `createTask` calls observing the same clock
reading. -/
def c9Env : CycleEnv :=
  { now := 0, hour := 12, proactiveApiResponse := none, proactiveSendOk := true
    fetchResult := some (operatorContent, "sha1".data)
    claudeReply := some twoDirectives, taskClocks := [some 5, some 5]
    replySendOk := true, appendSha := some "sha2".data
    dateStr := "D".data, timeStr := "T".data, isoStr := "I".data }

/-- State for the same-tick task-id run. -/
def c9State : AgentState :=
  { lastProcessedHash := none, isProcessing := false, lastProactiveMessage := 0 }

/-- A two-turn conversation used to instantiate the window claim. -/
def c6Msgs : List Message :=
  [Message.mk "caleb".data "hi".data, Message.mk "Claude".data "yo".data]

theorem isPrefixOf_append_self (l r : Str) : l.isPrefixOf (l ++ r) = true := by
  induction l with
  | nil => simp [List.isPrefixOf]
  | cons c t ih => simp [List.isPrefixOf, ih]

theorem isPrefixOf_self (l : Str) : l.isPrefixOf l = true := by
  have h := isPrefixOf_append_self l []
  rw [List.append_nil] at h
  exact h

theorem firstOcc_self (l : Str) : firstOcc l l = some 0 := by
  unfold firstOcc
  simp [isPrefixOf_self]

theorem replaceFirst_self (s new : Str) : replaceFirst s s new = new := by
  unfold replaceFirst
  simp [firstOcc_self, List.drop_length]

theorem charDigit_digitChar {d : Nat} (h : d < 10) :
    charDigit (Nat.digitChar d) = d := by
  interval_cases d <;> rfl

theorem natToDecimalAux_eq :
    ∀ (fuel n : Nat) (acc : Str), n < fuel →
      natToDecimalAux fuel n acc = decimalDigits n ++ acc := by
  intro fuel
  induction fuel with
  | zero => omega
  | succ f ih =>
    intro n acc h
    show natToDecimalAux (f + 1) n acc = decimalDigits n ++ acc
    unfold natToDecimalAux
    by_cases h10 : n / 10 = 0
    · have hn : n < 10 := by omega
      have hm : n % 10 = n := Nat.mod_eq_of_lt hn
      simp [h10, decimalDigits, hn, hm]
    · have hge : 10 ≤ n := by
        by_contra hc
        exact h10 (Nat.div_eq_of_lt (by omega))
      have hdlt : n / 10 < n := Nat.div_lt_self (by omega) (by omega)
      have hlt : n / 10 < f := by omega
      simp only [h10, if_neg, ite_false]
      rw [ih (n / 10) _ hlt]
      conv_rhs => rw [decimalDigits]
      simp [Nat.not_lt.mpr hge, List.append_assoc]

theorem foldl_decimalDigits (n : Nat) :
    ∀ a : Nat,
      List.foldl (fun x c => x * 10 + charDigit c) a (decimalDigits n) =
        a * 10 ^ (decimalDigits n).length + n := by
  induction n using Nat.strong_induction_on with
  | _ n ih =>
    intro a
    by_cases h : n < 10
    · rw [decimalDigits]
      simp [h, charDigit_digitChar h]
    · have hdlt : n / 10 < n := Nat.div_lt_self (by omega) (by omega)
      rw [decimalDigits]
      simp only [h, dite_false]
      rw [List.foldl_append, ih (n / 10) hdlt a]
      have hmod : charDigit (Nat.digitChar (n % 10)) = n % 10 :=
        charDigit_digitChar (Nat.mod_lt n (by omega))
      simp only [List.foldl_cons, List.foldl_nil, hmod, List.length_append,
        List.length_singleton]
      have hpow : 10 ^ ((decimalDigits (n / 10)).length + 1) =
          10 ^ (decimalDigits (n / 10)).length * 10 := pow_succ 10 _
      have hdm : 10 * (n / 10) + n % 10 = n := Nat.div_add_mod n 10
      ring_nf
      omega

theorem decToNat_natToDecimal (n : Nat) : decToNat (natToDecimal n) = n := by
  unfold natToDecimal decToNat
  rw [natToDecimalAux_eq (n + 1) n [] (by omega)]
  rw [List.append_nil, foldl_decimalDigits n 0]
  simp

theorem idTimestamp_taskIdOf (t : Nat) : idTimestamp (taskIdOf t) = t := by
  unfold idTimestamp taskIdOf
  have h5 : ("task_".data : Str).length = 5 := by decide
  rw [← h5, List.drop_left]
  exact decToNat_natToDecimal t

set_option maxRecDepth 10000

/-- Claim C9, counterexample: one cycle whose generated response holds
two task-creation directives, with both `createTask` calls observing
the same millisecond clock reading, produces two task records carrying
the identical id `task_5` — the ids are neither distinct nor strictly
ordered. -/
theorem task_id_uniqueness_c9_counterexample :
    (processMessages c9Env c9State).2.filter Effect.isTaskCreate =
      [Effect.taskCreate ['a'] "high".data (some "task_5".data),
       Effect.taskCreate ['b'] "low".data (some "task_5".data)] := by
  decide

/-- Claim C9 (amended): task ids generated by `createTask` are distinct
and embed strictly increasing timestamps provided the process clock
strictly advances between the two creations; with equal clock readings
(possible within one millisecond) the ids coincide. -/
theorem task_id_uniqueness_c9 (t1 t2 : Nat) (h : t1 < t2) :
    taskIdOf t1 ≠ taskIdOf t2 ∧
      idTimestamp (taskIdOf t1) < idTimestamp (taskIdOf t2) := by
  constructor
  · intro he
    have hts := congrArg idTimestamp he
    rw [idTimestamp_taskIdOf, idTimestamp_taskIdOf] at hts
    omega
  · rw [idTimestamp_taskIdOf, idTimestamp_taskIdOf]
    exact h

/-- Witness for C9 at the clock readings 5 and 6. -/
theorem task_id_uniqueness_c9_witness :
    5 < 6 ∧
      (taskIdOf 5 ≠ taskIdOf 6 ∧
        idTimestamp (taskIdOf 5) < idTimestamp (taskIdOf 6)) :=
  ⟨by decide, task_id_uniqueness_c9 5 6 (by decide)⟩

theorem buildConversationHistory_eq (messages : List Message) :
    buildConversationHistory messages =
      (messages.drop (messages.length - 10)).map fun msg =>
        if msg.from_ = claudeName then ConvMessage.mk roleAssistant msg.content
        else ConvMessage.mk roleUser msg.content := rfl

/-- Claim C6: `buildConversationHistory` returns exactly the trailing
`min(n, 10)` turns in original order, mapping the `'Claude'` speaker to
role `'assistant'` and every other speaker to role `'user'`, keeping
each turn's body; it is a total function. -/
theorem conversation_window_c6 (messages : List Message) :
    (buildConversationHistory messages).length = min messages.length 10 ∧
    ∀ i : Nat, i < min messages.length 10 →
      (buildConversationHistory messages).getD i default =
        (fun msg =>
            if msg.from_ = claudeName then
              ConvMessage.mk roleAssistant msg.content
            else ConvMessage.mk roleUser msg.content)
          (messages.getD (messages.length - min messages.length 10 + i)
            default) := by
  have hlen : (buildConversationHistory messages).length =
      min messages.length 10 := by
    rw [buildConversationHistory_eq]
    simp only [List.length_map, List.length_drop]
    omega
  refine ⟨hlen, ?_⟩
  intro i hi
  have h1 : i < (buildConversationHistory messages).length := by omega
  have h2 : messages.length - min messages.length 10 + i < messages.length := by
    omega
  rw [List.getD_eq_getElem _ _ h1, List.getD_eq_getElem _ _ h2]
  simp only [buildConversationHistory_eq]
  rw [List.getElem_map, List.getElem_drop]
  have hidx : messages.length - 10 + i =
      messages.length - min messages.length 10 + i := by omega
  simp only [hidx]

/-- Witness for C6: the window of a two-turn conversation, at index 1. -/
theorem conversation_window_c6_witness :
    (buildConversationHistory c6Msgs).getD 1 default =
      (fun msg =>
          if msg.from_ = claudeName then
            ConvMessage.mk roleAssistant msg.content
          else ConvMessage.mk roleUser msg.content)
        (c6Msgs.getD (c6Msgs.length - min c6Msgs.length 10 + 1) default) :=
  (conversation_window_c6 c6Msgs).2 1 (by decide)

theorem claudeLogEntry_eq_fixed (dateStr timeStr isoStr replyMessage : Str) :
    claudeLogEntry dateStr timeStr isoStr replyMessage =
      specLogRecordFixed dateStr timeStr isoStr replyMessage := by
  have hA : ("\n## ".data : Str) = ['\n'] ++ "## ".data := by decide
  have hSp : (" ".data : Str) = [' '] := by decide
  have hC :
      (" - Claude Response\n\n**From:** Claude\n**In Response To:** caleb_newton\n**Timestamp:** ".data : Str) =
        " - Claude Response".data ++ ['\n'] ++ ['\n'] ++
          "**From:** Claude".data ++ ['\n'] ++
          "**In Response To:** caleb_newton".data ++ ['\n'] ++
          "**Timestamp:** ".data := by decide
  have hD : ("\n\n".data : Str) = ['\n'] ++ ['\n'] := by decide
  have hE : ("\n\n---\n".data : Str) =
      ['\n'] ++ ['\n'] ++ "---".data ++ ['\n'] := by decide
  simp only [claudeLogEntry, specLogRecordFixed, hA, hSp, hC, hD, hE,
    List.append_assoc, List.cons_append, List.nil_append]

/-- Claim C8, counterexample: the record the source appends is not the
record enumerated by the claim — the source emits a blank line between
the `## <date> <time> - Claude Response` header and the `**From:**`
line, which the claimed record shape lacks; at empty prior content the
written content differs from the claimed one. -/
theorem append_only_log_c8_counterexample :
    logToGitHubContent [] "D".data "T".data "I".data "hi".data ≠
      [] ++ specLogRecord "D".data "T".data "I".data "hi".data := by
  decide

/-- Claim C8 (amended): the content written by `logToGitHub` is exactly
the prior content followed by one serialized record — newline, header
line, a blank line, the `**From:**`/`**In Response To:**`/
`**Timestamp:**` metadata lines, a blank line, the reply body, a blank
line, and the `---` delimiter line; the prior content is an unmodified
prefix and nothing is inserted anywhere else. -/
theorem append_only_log_c8 (content dateStr timeStr isoStr replyMessage : Str) :
    logToGitHubContent content dateStr timeStr isoStr replyMessage =
        content ++ specLogRecordFixed dateStr timeStr isoStr replyMessage ∧
    (logToGitHubContent content dateStr timeStr isoStr replyMessage).take
        content.length = content ∧
    (logToGitHubContent content dateStr timeStr isoStr replyMessage).drop
        content.length =
      specLogRecordFixed dateStr timeStr isoStr replyMessage := by
  refine ⟨?_, ?_, ?_⟩
  · rw [logToGitHubContent, claudeLogEntry_eq_fixed]
  · rw [logToGitHubContent, List.take_left]
  · rw [logToGitHubContent, List.drop_left, claudeLogEntry_eq_fixed]

/-- Claim C10: `parseMessages` discards every block containing the
substring `'# Messages from Poke'` before any parsing happens — the
filter factors into a pre-pass removing those blocks — and a block
carrying that substring together with a valid `**From:**` line and a
non-empty body still contributes no turn, although the block alone
would parse. -/
theorem header_discard_c10 :
    (∀ content : Str,
      parseMessages content =
        (((splitOnList sepMarker content).filter fun b =>
              !includesB pokeHeader b).filter fun b =>
            !(jsTrim b).isEmpty).filterMap parseBlock) ∧
    parseMessages pokeHeaderExample = [] ∧
    parseBlock pokeHeaderExample =
      some (Message.mk "caleb".data "hello".data) := by
  refine ⟨?_, by decide, by decide⟩
  intro content
  unfold parseMessages
  rw [List.filter_filter]

theorem nil_isPrefixOf (l : Str) : List.isPrefixOf [] l = true := by
  cases l <;> rfl

theorem matchOpenTag_high (rest : Str) :
    matchOpenTag (openTagPre ++ "high".data ++ [']'] ++ rest) =
      some ("high".data, rest) := by
  have hassoc : openTagPre ++ "high".data ++ [']'] ++ rest =
      openTagPre ++ ("high".data ++ ([']'] ++ rest)) := by
    simp [List.append_assoc]
  rw [hassoc]
  unfold matchOpenTag
  rw [isPrefixOf_append_self]
  have htrue : (("high".data ++ [']']).isPrefixOf
      ("high".data ++ ([']'] ++ rest))) = true := by
    rw [← List.append_assoc]
    exact isPrefixOf_append_self _ _
  simp only [if_true, List.drop_left, priorities, List.find?, htrue]
  rfl

theorem matchOpenTag_normal (rest : Str) :
    matchOpenTag (openTagPre ++ "normal".data ++ [']'] ++ rest) =
      some ("normal".data, rest) := by
  have hassoc : openTagPre ++ "normal".data ++ [']'] ++ rest =
      openTagPre ++ ("normal".data ++ ([']'] ++ rest)) := by
    simp [List.append_assoc]
  rw [hassoc]
  unfold matchOpenTag
  rw [isPrefixOf_append_self]
  have htrue : (("normal".data ++ [']']).isPrefixOf
      ("normal".data ++ ([']'] ++ rest))) = true := by
    rw [← List.append_assoc]
    exact isPrefixOf_append_self _ _
  simp only [if_true, List.drop_left, priorities, List.find?, htrue]
  rfl

theorem matchOpenTag_low (rest : Str) :
    matchOpenTag (openTagPre ++ "low".data ++ [']'] ++ rest) =
      some ("low".data, rest) := by
  have hassoc : openTagPre ++ "low".data ++ [']'] ++ rest =
      openTagPre ++ ("low".data ++ ([']'] ++ rest)) := by
    simp [List.append_assoc]
  rw [hassoc]
  unfold matchOpenTag
  rw [isPrefixOf_append_self]
  have htrue : (("low".data ++ [']']).isPrefixOf
      ("low".data ++ ([']'] ++ rest))) = true := by
    rw [← List.append_assoc]
    exact isPrefixOf_append_self _ _
  simp only [if_true, List.drop_left, priorities, List.find?, htrue]
  rfl

theorem matchOpenTag_tag (p rest : Str) (hp : p ∈ priorities) :
    matchOpenTag (openTagPre ++ p ++ [']'] ++ rest) = some (p, rest) := by
  have hp3 : p = "high".data ∨ p = "normal".data ∨ p = "low".data := by
    simpa [priorities] using hp
  rcases hp3 with h | h | h <;> subst h
  · exact matchOpenTag_high rest
  · exact matchOpenTag_normal rest
  · exact matchOpenTag_low rest

theorem extractTasksLoop_nil (fuel : Nat) : extractTasksLoop fuel [] = [] := by
  cases fuel <;> rfl

theorem extractTasksLoop_succ (fuel : Nat) (s : Str) :
    extractTasksLoop (fuel + 1) s =
      match matchOpenTag s with
      | some (p, afterOpen) =>
        match firstOcc closeTag afterOpen with
        | some j =>
          ((openTagPre ++ p ++ [']']) ++ afterOpen.take j ++ closeTag, p,
              afterOpen.take j) ::
            extractTasksLoop fuel (afterOpen.drop (j + closeTag.length))
        | none => []
      | none =>
        match s with
        | [] => []
        | _ :: rest => extractTasksLoop fuel rest := rfl

theorem extractTasks_single (p body : Str) (hp : p ∈ priorities)
    (hbody : firstOcc closeTag (body ++ closeTag) = some body.length) :
    extractTasks (openTagPre ++ p ++ [']'] ++ body ++ closeTag) =
      [(openTagPre ++ p ++ [']'] ++ body ++ closeTag, p, body)] := by
  have hshape : openTagPre ++ p ++ [']'] ++ body ++ closeTag =
      openTagPre ++ p ++ [']'] ++ (body ++ closeTag) := by
    simp [List.append_assoc]
  have hmatch := matchOpenTag_tag p (body ++ closeTag) hp
  have htake : List.take body.length (body ++ closeTag) = body :=
    List.take_left _ _
  have hdrop : List.drop (body.length + closeTag.length) (body ++ closeTag) =
      ([] : Str) := by
    rw [List.drop_append closeTag.length, List.drop_length]
  unfold extractTasks
  rw [hshape, extractTasksLoop_succ, hmatch]
  simp only [hbody, htake, hdrop, extractTasksLoop_nil, List.append_assoc]

theorem runTaskDirectives_nil (clocks : List (Option Nat)) (resp : Str) :
    runTaskDirectives [] clocks resp = (resp, []) := rfl

theorem runTaskDirectives_cons (full priority body : Str)
    (rest : List (Str × Str × Str)) (clocks : List (Option Nat))
    (resp : Str) :
    runTaskDirectives ((full, priority, body) :: rest) clocks resp =
      (let clock := clocks.headD none
       let taskId := clock.map taskIdOf
       let resp2 :=
         match taskId with
         | some tid =>
           replaceFirst resp full ("[Task created: ".data ++ tid ++ [']'])
         | none => resp
       let r := runTaskDirectives rest clocks.tail resp2
       (r.1, Effect.taskCreate (jsTrim body) priority taskId :: r.2)) := rfl

theorem mainPhase_threw_clocks (env : CycleEnv) (s : AgentState)
    (clocks2 : List (Option Nat)) :
    (mainPhase { env with taskClocks := clocks2 } s).2.2 =
      (mainPhase env s).2.2 := by
  unfold mainPhase
  simp only [show ({ env with taskClocks := clocks2 } : CycleEnv).fetchResult =
      env.fetchResult from rfl,
    show ({ env with taskClocks := clocks2 } : CycleEnv).claudeReply =
      env.claudeReply from rfl,
    show ({ env with taskClocks := clocks2 } : CycleEnv).replySendOk =
      env.replySendOk from rfl,
    show ({ env with taskClocks := clocks2 } : CycleEnv).appendSha =
      env.appendSha from rfl,
    show ({ env with taskClocks := clocks2 } : CycleEnv).dateStr =
      env.dateStr from rfl,
    show ({ env with taskClocks := clocks2 } : CycleEnv).timeStr =
      env.timeStr from rfl,
    show ({ env with taskClocks := clocks2 } : CycleEnv).isoStr =
      env.isoStr from rfl,
    show ({ env with taskClocks := clocks2 } : CycleEnv).taskClocks =
      clocks2 from rfl]
  cases env.fetchResult with
  | none => rfl
  | some cs =>
    obtain ⟨content, sha⟩ := cs
    by_cases hsha : s.lastProcessedHash = some sha
    · simp [hsha]
    · simp only [hsha, ite_false, if_neg]
      cases hnr : needsResponse (parseMessages content) with
      | none => simp
      | some m =>
        simp only
        cases env.claudeReply with
        | none => rfl
        | some cr =>
          by_cases hsend : env.replySendOk = false
          · simp [hsend]
          · simp only [hsend, ite_false, if_neg]
            cases env.appendSha <;> rfl

/-- Claim C7, counterexample: a response that is exactly one
task-creation directive, whose `createTask` fails (returns `null`):
the delivered text is the original response unchanged — the directive
text is still present verbatim and no error marker replaces it. -/
theorem createtask_failure_c7_counterexample :
    (runTaskDirectives (extractTasks c7resp) [none] c7resp).1 = c7resp ∧
    extractTasks c7resp ≠ [] ∧
    includesB closeTag (runTaskDirectives (extractTasks c7resp) [none]
        c7resp).1 = true := by
  refine ⟨by decide, by decide, by decide⟩

/-- Claim C7 (amended): for a CreateTask directive found in the
response, successful creation replaces the directive text with
`[Task created: <id>]`; failed creation leaves the directive text in
place unchanged (the error is logged inside `createTask`, which
returns `null`); and the directive outcome never changes whether the
cycle body throws. -/
theorem createtask_rewrite_c7 (p body : Str) (clock : Option Nat)
    (hp : p ∈ priorities)
    (hbody : firstOcc closeTag (body ++ closeTag) = some body.length) :
    (runTaskDirectives
        (extractTasks (openTagPre ++ p ++ [']'] ++ body ++ closeTag))
        [clock] (openTagPre ++ p ++ [']'] ++ body ++ closeTag) =
      ((match clock with
        | some t => "[Task created: ".data ++ taskIdOf t ++ [']']
        | none => openTagPre ++ p ++ [']'] ++ body ++ closeTag),
       [Effect.taskCreate (jsTrim body) p (clock.map taskIdOf)])) ∧
    (∀ (env : CycleEnv) (s : AgentState) (clocks2 : List (Option Nat)),
      (mainPhase { env with taskClocks := clocks2 } s).2.2 =
        (mainPhase env s).2.2) := by
  refine ⟨?_, fun env s clocks2 => mainPhase_threw_clocks env s clocks2⟩
  rw [extractTasks_single p body hp hbody, runTaskDirectives_cons]
  cases clock with
  | none => simp [runTaskDirectives_nil]
  | some t =>
    simp only [List.headD, Option.map, runTaskDirectives_nil,
      replaceFirst_self, List.tail]

/-- Witness for C7: a concrete `bash` directive body, in both the
successful and the failing run. -/
theorem createtask_rewrite_c7_witness :
    (runTaskDirectives
        (extractTasks (openTagPre ++ "high".data ++ [']'] ++
          "\nbash: ls\n".data ++ closeTag))
        [some 7] (openTagPre ++ "high".data ++ [']'] ++
          "\nbash: ls\n".data ++ closeTag) =
      ("[Task created: ".data ++ taskIdOf 7 ++ [']'],
       [Effect.taskCreate (jsTrim "\nbash: ls\n".data) "high".data
          (some (taskIdOf 7))])) :=
  (createtask_rewrite_c7 "high".data "\nbash: ls\n".data (some 7)
    (by decide) (by decide)).1

theorem checkForProactiveUpdates_effects (env : CycleEnv) (last : Nat) :
    ∀ e ∈ (checkForProactiveUpdates env last).2, e = Effect.proactiveQuery := by
  unfold checkForProactiveUpdates
  split_ifs <;> simp

theorem checkForProactiveUpdates_gate (env : CycleEnv) (last : Nat) (m : Str)
    (h : (checkForProactiveUpdates env last).1 = some m) :
    86400000 ≤ env.now - last ∧ 9 ≤ env.hour ∧ env.hour ≤ 20 := by
  unfold checkForProactiveUpdates at h
  by_cases h1 : env.now - last < 86400000
  · rw [if_pos h1] at h
    simp at h
  · rw [if_neg h1] at h
    by_cases h2 : env.hour < 9 ∨ env.hour > 20
    · rw [if_pos h2] at h
      simp at h
    · refine ⟨by omega, by omega, by omega⟩

theorem checkForProactiveUpdates_lt (env : CycleEnv) (last : Nat)
    (h : env.now - last < 86400000) :
    checkForProactiveUpdates env last = (none, []) := by
  unfold checkForProactiveUpdates
  simp [h]

theorem proactivePhase_none (env : CycleEnv) (s : AgentState)
    (h : (checkForProactiveUpdates env s.lastProactiveMessage).1 = none) :
    proactivePhase env s =
      (s, (checkForProactiveUpdates env s.lastProactiveMessage).2, false) := by
  unfold proactivePhase
  rcases hc : checkForProactiveUpdates env s.lastProactiveMessage with ⟨dec, effs⟩
  rw [hc] at h
  cases dec with
  | none => rfl
  | some m => simp at h

theorem proactivePhase_some_ok (env : CycleEnv) (s : AgentState) (m : Str)
    (h : (checkForProactiveUpdates env s.lastProactiveMessage).1 = some m)
    (hok : env.proactiveSendOk = true) :
    proactivePhase env s =
      ({ s with lastProactiveMessage := env.now },
        (checkForProactiveUpdates env s.lastProactiveMessage).2 ++
          [Effect.proactiveSend m], false) := by
  unfold proactivePhase
  rcases hc : checkForProactiveUpdates env s.lastProactiveMessage with ⟨dec, effs⟩
  rw [hc] at h
  cases dec with
  | none => simp at h
  | some m2 =>
    have hm : m2 = m := by simpa using h
    subst hm
    simp [hok]

theorem proactivePhase_some_fail (env : CycleEnv) (s : AgentState) (m : Str)
    (h : (checkForProactiveUpdates env s.lastProactiveMessage).1 = some m)
    (hok : env.proactiveSendOk = false) :
    proactivePhase env s =
      (s, (checkForProactiveUpdates env s.lastProactiveMessage).2 ++
          [Effect.proactiveSend m], true) := by
  unfold proactivePhase
  rcases hc : checkForProactiveUpdates env s.lastProactiveMessage with ⟨dec, effs⟩
  rw [hc] at h
  cases dec with
  | none => simp at h
  | some m2 =>
    have hm : m2 = m := by simpa using h
    subst hm
    simp [hok]

theorem proactivePhase_hash (env : CycleEnv) (s : AgentState) :
    (proactivePhase env s).1.lastProcessedHash = s.lastProcessedHash := by
  unfold proactivePhase
  rcases checkForProactiveUpdates env s.lastProactiveMessage with ⟨dec, effs⟩
  cases dec with
  | none => rfl
  | some m => by_cases hok : env.proactiveSendOk <;> simp [hok]

theorem proactivePhase_effects (env : CycleEnv) (s : AgentState) :
    ∀ e ∈ (proactivePhase env s).2.1, e.isMainEffect = false := by
  unfold proactivePhase
  have hq := checkForProactiveUpdates_effects env s.lastProactiveMessage
  rcases hc : checkForProactiveUpdates env s.lastProactiveMessage with ⟨dec, effs⟩
  rw [hc] at hq
  cases dec with
  | none =>
    intro e he
    rw [hq e he]
    rfl
  | some m =>
    by_cases hok : env.proactiveSendOk <;> simp [hok] <;>
      · intro e he
        rcases he with h1 | h1
        · rw [hq e h1]; rfl
        · rw [h1]; rfl

theorem proactivePhase_no_send (env : CycleEnv) (s : AgentState) :
    ∀ m : Str, Effect.proactiveSend m ∈ (proactivePhase env s).2.1 →
      (checkForProactiveUpdates env s.lastProactiveMessage).1.isSome = true := by
  unfold proactivePhase
  have hq := checkForProactiveUpdates_effects env s.lastProactiveMessage
  rcases hc : checkForProactiveUpdates env s.lastProactiveMessage with ⟨dec, effs⟩
  rw [hc] at hq
  cases dec with
  | none =>
    intro m hm
    have := hq _ hm
    simp at this
  | some m2 => simp

theorem runTaskDirectives_effects (ds : List (Str × Str × Str))
    (clocks : List (Option Nat)) (resp : Str) :
    ∀ e ∈ (runTaskDirectives ds clocks resp).2, e.isTaskCreate = true := by
  induction ds generalizing clocks resp with
  | nil => intro e he; simp [runTaskDirectives_nil] at he
  | cons d rest ih =>
    obtain ⟨full, priority, body⟩ := d
    intro e he
    rw [runTaskDirectives_cons] at he
    simp only [List.mem_cons] at he
    rcases he with h | h
    · rw [h]; rfl
    · exact ih _ _ e h

theorem mainPhase_fetch_none (env : CycleEnv) (s : AgentState)
    (h : env.fetchResult = none) : mainPhase env s = (s, [], true) := by
  unfold mainPhase
  rw [h]

theorem mainPhase_sha_eq (env : CycleEnv) (s : AgentState)
    (content sha : Str) (hf : env.fetchResult = some (content, sha))
    (hsha : s.lastProcessedHash = some sha) :
    mainPhase env s = (s, [], false) := by
  unfold mainPhase
  rw [hf]
  simp [hsha]

theorem mainPhase_needs_none (env : CycleEnv) (s : AgentState)
    (content sha : Str) (hf : env.fetchResult = some (content, sha))
    (hsha : ¬s.lastProcessedHash = some sha)
    (hnr : needsResponse (parseMessages content) = none) :
    mainPhase env s =
      ({ s with lastProcessedHash := some sha }, [], false) := by
  unfold mainPhase
  rw [hf]
  simp [hsha, hnr]

theorem mainPhase_lastProactive (env : CycleEnv) (s : AgentState) :
    (mainPhase env s).1.lastProactiveMessage = s.lastProactiveMessage := by
  unfold mainPhase
  cases env.fetchResult with
  | none => rfl
  | some cs =>
    obtain ⟨content, sha⟩ := cs
    by_cases hsha : s.lastProcessedHash = some sha
    · simp [hsha]
    · simp only [hsha, ite_false, if_neg]
      cases hnr : needsResponse (parseMessages content) with
      | none => simp
      | some m =>
        simp only
        cases env.claudeReply with
        | none => rfl
        | some cr =>
          by_cases hsend : env.replySendOk = false
          · simp [hsend]
          · simp only [hsend, ite_false, if_neg]
            cases env.appendSha <;> rfl

theorem mainPhase_no_proactive (env : CycleEnv) (s : AgentState) :
    ∀ e ∈ (mainPhase env s).2.1, e.isProactiveSend = false := by
  unfold mainPhase
  cases env.fetchResult with
  | none => simp
  | some cs =>
    obtain ⟨content, sha⟩ := cs
    by_cases hsha : s.lastProcessedHash = some sha
    · simp [hsha]
    · simp only [hsha, ite_false, if_neg]
      cases hnr : needsResponse (parseMessages content) with
      | none => simp
      | some m =>
        simp only
        cases env.claudeReply with
        | none =>
          intro e he
          simp only [List.mem_singleton] at he
          rw [he]
          rfl
        | some cr =>
          have htask := runTaskDirectives_effects (extractTasks cr)
            env.taskClocks cr
          have hstep : ∀ e, e ∈ (runTaskDirectives (extractTasks cr)
              env.taskClocks cr).2 → e.isProactiveSend = false := by
            intro e he
            have h2 := htask e he
            cases e <;> first
              | rfl
              | simp [Effect.isTaskCreate] at h2
          by_cases hsend : env.replySendOk = false
          · simp only [hsend, ite_true, if_pos]
            intro e he
            rcases List.mem_cons.mp he with h1 | h1
            · rw [h1]; rfl
            · rcases List.mem_append.mp h1 with h2 | h2
              · exact hstep e h2
              · rw [List.mem_singleton.mp h2]; rfl
          · simp only [hsend, ite_false, if_neg]
            cases env.appendSha with
            | none =>
              intro e he
              rcases List.mem_cons.mp he with h1 | h1
              · rw [h1]; rfl
              · rcases List.mem_append.mp h1 with h2 | h2
                · exact hstep e h2
                · rcases List.mem_cons.mp h2 with h3 | h3
                  · rw [h3]; rfl
                  · rw [List.mem_singleton.mp h3]; rfl
            | some newSha =>
              intro e he
              rcases List.mem_cons.mp he with h1 | h1
              · rw [h1]; rfl
              · rcases List.mem_append.mp h1 with h2 | h2
                · exact hstep e h2
                · rcases List.mem_cons.mp h2 with h3 | h3
                  · rw [h3]; rfl
                  · rw [List.mem_singleton.mp h3]; rfl

theorem processMessages_busy (env : CycleEnv) (s : AgentState)
    (h : s.isProcessing = true) : processMessages env s = (s, []) := by
  unfold processMessages
  simp [h]

theorem processMessages_idle (env : CycleEnv) (s : AgentState)
    (h : s.isProcessing = false) :
    processMessages env s =
      (let pro := proactivePhase env { s with isProcessing := true }
       if pro.2.2 then ({ pro.1 with isProcessing := false }, pro.2.1)
       else
         let main := mainPhase env pro.1
         ({ main.1 with isProcessing := false }, pro.2.1 ++ main.2.1)) := by
  unfold processMessages
  simp [h]

/-- Claim C1: in every cycle in which fetching the conversation log
returns a sha equal to the last-seen `lastProcessedHash`, the cycle
stops at that comparison — no generative reply call, no directive
extraction or execution, no reply send and no conversation-log append
occur in that cycle (only proactive-phase effects can precede the
fetch), and the last-seen token is unchanged. -/
theorem noop_detection_c1 (env : CycleEnv) (s : AgentState) (content sha : Str)
    (hf : env.fetchResult = some (content, sha))
    (hsha : s.lastProcessedHash = some sha) :
    (∀ e ∈ (processMessages env s).2, e.isMainEffect = false) ∧
    (processMessages env s).1.lastProcessedHash = s.lastProcessedHash := by
  by_cases hb : s.isProcessing
  · rw [processMessages_busy env s hb]
    exact ⟨by simp, rfl⟩
  · have hb2 : s.isProcessing = false := by simpa using hb
    rw [processMessages_idle env s hb2]
    by_cases hthrew : (proactivePhase env { s with isProcessing := true }).2.2 = true
    · rw [if_pos hthrew]
      refine ⟨proactivePhase_effects env _, ?_⟩
      rw [proactivePhase_hash]
    · rw [if_neg hthrew]
      have hhash : (proactivePhase env { s with isProcessing := true }).1.lastProcessedHash =
          some sha := by
        rw [proactivePhase_hash]
        exact hsha
      have hmain := mainPhase_sha_eq env
        (proactivePhase env { s with isProcessing := true }).1 content sha hf hhash
      simp only [hmain, List.append_nil]
      refine ⟨proactivePhase_effects env _, ?_⟩
      rw [proactivePhase_hash]

/-- Claim C2: whenever the most recent parsed turn's speaker is
`'Claude'`, `needsResponse` returns `null` and the cycle performs no
generative reply call, sends no reply and appends nothing. -/
theorem self_answer_suppression_c2 (env : CycleEnv) (s : AgentState)
    (content sha : Str) (hf : env.fetchResult = some (content, sha))
    (hlast : ∃ m, (parseMessages content).getLast? = some m ∧
      m.from_ = claudeName) :
    needsResponse (parseMessages content) = none ∧
    ∀ e ∈ (processMessages env s).2, e.isMainEffect = false := by
  obtain ⟨m, hm, hcl⟩ := hlast
  have hnr : needsResponse (parseMessages content) = none := by
    unfold needsResponse
    rw [hm]
    simp [hcl]
  refine ⟨hnr, ?_⟩
  by_cases hb : s.isProcessing
  · rw [processMessages_busy env s hb]
    simp
  · have hb2 : s.isProcessing = false := by simpa using hb
    rw [processMessages_idle env s hb2]
    by_cases hthrew : (proactivePhase env { s with isProcessing := true }).2.2 = true
    · rw [if_pos hthrew]
      exact proactivePhase_effects env _
    · rw [if_neg hthrew]
      by_cases hsha : (proactivePhase env { s with isProcessing := true }).1.lastProcessedHash =
          some sha
      · have hmain := mainPhase_sha_eq env
          (proactivePhase env { s with isProcessing := true }).1 content sha hf hsha
        simp only [hmain, List.append_nil]
        exact proactivePhase_effects env _
      · have hmain := mainPhase_needs_none env
          (proactivePhase env { s with isProcessing := true }).1 content sha hf hsha hnr
        simp only [hmain, List.append_nil]
        exact proactivePhase_effects env _

/-- Claim C3: a proactive message is sent only if at least 24 hours
passed since `lastProactiveMessage` and the local hour is within
`[9, 20]`; with `lastSentAt = now - 23h` no proactive send occurs; with
`lastSentAt = now - 25h`, local hour 14, the decision oracle answering
with a message and the send succeeding, exactly one send occurs in the
cycle and `lastProactiveMessage` is updated to the current time. -/
theorem proactive_gate_c3 (env : CycleEnv) (s : AgentState)
    (hb : s.isProcessing = false) :
    (∀ m : Str, Effect.proactiveSend m ∈ (processMessages env s).2 →
      86400000 ≤ env.now - s.lastProactiveMessage ∧
        9 ≤ env.hour ∧ env.hour ≤ 20) ∧
    (env.now = s.lastProactiveMessage + 82800000 →
      ∀ m : Str, Effect.proactiveSend m ∉ (processMessages env s).2) ∧
    ((checkForProactiveUpdates env s.lastProactiveMessage).1.isSome = true →
      env.proactiveSendOk = true →
      (processMessages env s).2.countP Effect.isProactiveSend = 1 ∧
      (processMessages env s).1.lastProactiveMessage = env.now) := by
  rw [processMessages_idle env s hb]
  refine ⟨?_, ?_, ?_⟩
  · intro m hm
    have hsend : (checkForProactiveUpdates env s.lastProactiveMessage).1.isSome = true := by
      by_cases hthrew : (proactivePhase env { s with isProcessing := true }).2.2 = true
      · rw [if_pos hthrew] at hm
        exact proactivePhase_no_send env { s with isProcessing := true } m hm
      · rw [if_neg hthrew] at hm
        rcases List.mem_append.mp hm with h1 | h1
        · exact proactivePhase_no_send env { s with isProcessing := true } m h1
        · have := mainPhase_no_proactive env _ _ h1
          simp [Effect.isProactiveSend] at this
    obtain ⟨m2, hm2⟩ := Option.isSome_iff_exists.mp hsend
    exact checkForProactiveUpdates_gate env s.lastProactiveMessage m2 hm2
  · intro h23 m hm
    have hlt : env.now - s.lastProactiveMessage < 86400000 := by omega
    have hc := checkForProactiveUpdates_lt env s.lastProactiveMessage hlt
    have hpro := proactivePhase_none env { s with isProcessing := true }
      (by rw [hc])
    rw [hpro] at hm
    rw [if_neg (by simp)] at hm
    rw [hc] at hm
    simp only [List.nil_append] at hm
    have := mainPhase_no_proactive env _ _ hm
    simp [Effect.isProactiveSend] at this
  · intro hdec hok
    obtain ⟨m, hm⟩ := Option.isSome_iff_exists.mp hdec
    have hpro := proactivePhase_some_ok env { s with isProcessing := true } m hm hok
    rw [hpro]
    rw [if_neg (by simp)]
    have hq := checkForProactiveUpdates_effects env s.lastProactiveMessage
    have hq0 : ((checkForProactiveUpdates env s.lastProactiveMessage).2).countP
        Effect.isProactiveSend = 0 := by
      rw [List.countP_eq_zero]
      intro e he
      rw [hq e he]
      simp [Effect.isProactiveSend]
    have hmain0 : ((mainPhase env { { s with isProcessing := true } with
        lastProactiveMessage := env.now }).2.1).countP Effect.isProactiveSend = 0 := by
      rw [List.countP_eq_zero]
      intro e he
      have := mainPhase_no_proactive env _ e he
      simp [this]
    constructor
    · rw [List.countP_append, List.countP_append, hq0, hmain0]
      rfl
    · rw [mainPhase_lastProactive]

/-- Claim C4, counterexample: a run in which the gate decides to send
(one send attempt appears in the trace) but `sendToPoke` fails leaves
`lastProactiveMessage` unchanged — the update is NOT unconditional,
because the assignment follows the awaited send and the thrown error
skips it. -/
theorem proactive_update_c4_counterexample :
    (processMessages c4Env c4State).2.countP Effect.isProactiveSend = 1 ∧
    (processMessages c4Env c4State).1.lastProactiveMessage =
      c4State.lastProactiveMessage ∧
    c4State.lastProactiveMessage ≠ c4Env.now := by
  refine ⟨by decide, by decide, by decide⟩

/-- Claim C4 (amended): whenever the proactive gate decides to send,
`lastProactiveMessage` is updated to the current time exactly when the
downstream `sendToPoke` succeeds; when the send throws, the update is
skipped and the cycle aborts to the catch handler. -/
theorem proactive_update_on_send_c4 (env : CycleEnv) (s : AgentState)
    (hb : s.isProcessing = false)
    (hdec : (checkForProactiveUpdates env s.lastProactiveMessage).1.isSome =
      true) :
    (processMessages env s).1.lastProactiveMessage =
      (if env.proactiveSendOk then env.now else s.lastProactiveMessage) := by
  obtain ⟨m, hm⟩ := Option.isSome_iff_exists.mp hdec
  rw [processMessages_idle env s hb]
  by_cases hok : env.proactiveSendOk
  · have hpro := proactivePhase_some_ok env { s with isProcessing := true } m hm hok
    rw [hpro]
    rw [if_neg (by simp), if_pos hok]
    rw [mainPhase_lastProactive]
  · have hok2 : env.proactiveSendOk = false := by simpa using hok
    have hpro := proactivePhase_some_fail env { s with isProcessing := true } m hm hok2
    rw [hpro]
    rw [if_pos (by simp), if_neg hok]

/-- Claim C5: invoking `processMessages` while a cycle is already
executing returns immediately with no effect (the tick is dropped), and
whenever a cycle body actually runs, `isProcessing` is `false` again on
every exit path, thrown errors included. -/
theorem reentrancy_guard_c5 (env : CycleEnv) (s : AgentState) :
    (s.isProcessing = true → processMessages env s = (s, [])) ∧
    (s.isProcessing = false →
      (processMessages env s).1.isProcessing = false) := by
  constructor
  · intro h
    exact processMessages_busy env s h
  · intro h
    rw [processMessages_idle env s h]
    by_cases hthrew : (proactivePhase env { s with isProcessing := true }).2.2 = true
    · rw [if_pos hthrew]
    · rw [if_neg hthrew]

/-- Witness for C1: a concrete unchanged-sha run. -/
theorem noop_detection_c1_witness :
    (∀ e ∈ (processMessages c1Env c1State).2, e.isMainEffect = false) ∧
    (processMessages c1Env c1State).1.lastProcessedHash =
      c1State.lastProcessedHash :=
  noop_detection_c1 c1Env c1State "x".data "sha1".data rfl rfl

/-- Witness for C2: a concrete log whose last turn is the assistant's. -/
theorem self_answer_suppression_c2_witness :
    needsResponse (parseMessages c2Content) = none ∧
    ∀ e ∈ (processMessages c2Env c2State).2, e.isMainEffect = false :=
  self_answer_suppression_c2 c2Env c2State c2Content "sha2".data rfl
    ⟨Message.mk "Claude".data "yo".data, by decide, by decide⟩

/-- Witness for C3: the 25-hour, hour-14, successful-send run. -/
theorem proactive_gate_c3_witness :
    (processMessages c3Env c3State).2.countP Effect.isProactiveSend = 1 ∧
    (processMessages c3Env c3State).1.lastProactiveMessage = c3Env.now :=
  (proactive_gate_c3 c3Env c3State rfl).2.2 (by decide) rfl

/-- Witness for C4: the failed-send run, where the gate decided to send. -/
theorem proactive_update_on_send_c4_witness :
    (processMessages c4Env c4State).1.lastProactiveMessage =
      (if c4Env.proactiveSendOk then c4Env.now
       else c4State.lastProactiveMessage) :=
  proactive_update_on_send_c4 c4Env c4State rfl (by decide)

/-- Witness for C5: one busy tick and one idle tick. -/
theorem reentrancy_guard_c5_witness :
    processMessages c5Env c5Busy = (c5Busy, []) ∧
    (processMessages c5Env c5Idle).1.isProcessing = false :=
  ⟨(reentrancy_guard_c5 c5Env c5Busy).1 rfl,
   (reentrancy_guard_c5 c5Env c5Idle).2 rfl⟩
